import Mathlib

/-!
Verification development for the PeriPy OpenCL simulation engine
(`peridynamics/model_cl.py`).

The host-side orchestration (`ModelCL.simulate`, `ModelCL.__init__` context
handling) is embedded directly from the source.  The OpenCL kernel bodies
(`damage`, `break_bonds`, `bond_force` from `kernel_source`) and the parent
class helper `Model._simulate_initialise` live outside the embedded file and
are modelled from the specification where a claim depends on them; the
`bond_force` kernel, whose numeric output no claim inspects, is kept as an
arbitrary function parameter of the step relation.

Numbers are embedded as rationals; machine `double` arithmetic is not
modelled bitwise.  Host and device buffers are explicit fields of a state
record, and every kernel dispatch, host/device copy, collaborator call and
mesh write is recorded in an event trace so that ordering and frame claims
can be stated about whole runs.
-/

namespace PeriPy

/-- A 3-vector of rationals, standing for one row of an `(n, 3)` array. -/
abbrev Vec3 := ℚ × ℚ × ℚ

/-- A displacement / coordinate / force field: one 3-vector per node. -/
abbrev Disp := List Vec3

/-- A neighbour list: one row of neighbour indices per node. -/
abbrev NList := List (List ℕ)

/-- The all-zero 3-vector. -/
def zeroVec : Vec3 := ((0 : ℚ), (0 : ℚ), (0 : ℚ))

/-- Elementwise sum of two fields, the embedding of `self.coords + u`. -/
def vadd (a b : Disp) : Disp :=
  (a.zip b).map (fun p => (p.1.1 + p.2.1, p.1.2.1 + p.2.2.1, p.1.2.2 + p.2.2.2))

/-- Squared Euclidean distance between two 3-vectors. -/
def sqDist (a b : Vec3) : ℚ :=
  (a.1 - b.1) ^ 2 + (a.2.1 - b.2.1) ^ 2 + (a.2.2 - b.2.2) ^ 2

/-- The static data of a `ModelCL` object that `simulate` reads: node count,
reference coordinates, volumes, family counts, the connectivity captured at
construction, the row capacity and the two material scalars. -/
structure ModelCL where
  nnodes : ℕ
  coords : Disp
  volume : List ℚ
  family : List ℕ
  initial_nlist : NList
  initial_n_neigh : List ℕ
  max_neighbours : ℕ
  bond_stiffness : ℚ
  critical_strain : ℚ
deriving DecidableEq

/-- Integrator collaborator: `(u, force) -> new u`. -/
abbrev Integrator := Disp → Disp → Disp

/-- Boundary-condition collaborator: `(model, u, step) -> adjusted u`. -/
abbrev BoundaryFn := ModelCL → Disp → ℕ → Disp

/-- Bond-force kernel viewed as a function
`(r, r0, nlist, n_neigh, max_neighbours, volume, bond_stiffness) -> force`.
Its body lives in the excluded kernel file and its real-valued output is
inspected by no claim, so it stays an arbitrary parameter: every theorem
below holds for every bond-force function. -/
abbrev BondForceFn := Disp → Disp → NList → List ℕ → ℕ → List ℚ → ℚ → Disp

/-- Modelled from the spec: the break test of the Bond Breaking Kernel
(kernel body absent from the embedded file).  Spec 4.3: bond stretch
`(current_length - reference_length) / reference_length` exceeds the
critical strain.  For a nonnegative critical strain `s` this is equivalent
to comparing squared lengths, `|r_i - r_j|^2 > (1+s)^2 |r0_i - r0_j|^2`,
which keeps the test exact over the rationals. -/
def bondBroken (r r0 : Disp) (i j : ℕ) (s : ℚ) : Bool :=
  decide ((1 + s) ^ 2 * sqDist (r0.getD i zeroVec) (r0.getD j zeroVec) <
    sqDist (r.getD i zeroVec) (r.getD j zeroVec))

/-- Modelled from the spec: one node's work item of the Bond Breaking Kernel
(spec 4.2 and 4.3).  The first `c` entries of `row` are the active
neighbours; surviving bonds are compacted to a contiguous prefix (the spec
allows swap-to-end compaction "or an equivalent contiguous-prefix
re-ordering"), broken ones are parked behind them, entries past `c` are
untouched, and the active count becomes the number of survivors. -/
def breakRow (r r0 : Disp) (s : ℚ) (i : ℕ) (row : List ℕ) (c : ℕ) : List ℕ × ℕ :=
  let active := row.take c
  let kept := active.filter (fun j => ! bondBroken r r0 i j s)
  let broken := active.filter (fun j => bondBroken r r0 i j s)
  (kept ++ broken ++ row.drop c, kept.length)

/-- Modelled from the spec: the Bond Breaking Kernel over all nodes, node
`i` onward.  Each node's row and active count are rewritten independently
by `breakRow`; the recursion is the sequential reading of the parallel
per-node dispatch, which is race-free because each work item touches only
its own row (spec 4.3, 5). -/
def break_bonds (r r0 : Disp) (s : ℚ) : ℕ → NList → List ℕ → NList × List ℕ
  | _, [], _ => ([], [])
  | _, _ :: _, [] => ([], [])
  | i, row :: nl, c :: nn =>
    let h := breakRow r r0 s i row c
    let t := break_bonds r r0 s (i + 1) nl nn
    (h.1 :: t.1, h.2 :: t.2)

/-- Modelled from the spec: the Damage Kernel (spec 4.4), argument order as
in the dispatch `damage(n_neigh_d, family_d, damage_d)`.
`damage[i] = (family[i] - n_neigh[i]) / family[i]`; a node with
`family[i] = 0` is the degenerate case the spec requires to be handled
without a division failure, taken here as zero damage. -/
def damage_kernel : List ℕ → List ℕ → List ℚ
  | nn :: ns, fam :: fs =>
    (if fam = 0 then 0 else ((fam : ℚ) - (nn : ℚ)) / (fam : ℚ)) :: damage_kernel ns fs
  | _, _ => []

/-- One observable action of a `simulate` run, in program order: kernel
dispatches carry the device coordinate buffer they read. -/
inductive Event where
  | kBondForce (r : Disp)
  | copyForce
  | callIntegrator
  | callBoundary (step : ℕ)
  | refreshCoords (r : Disp)
  | kBreakBonds (r : Disp)
  | kDamage
  | copyDamage
  | writeMesh (path : String)
  | copyNlist
  | copyNNeigh
deriving DecidableEq

/-- The run state of `simulate`: host displacement `u`, the device buffers
`r_d`, `nlist_d`, `n_neigh_d`, `family_d`, `damage_d`, `force_d`, the host
scratch arrays `force` and `damage` (allocated with `np.empty`, so `none`
until first written), and the mesh files emitted so far.  `damage_d` and
`force_d` are `WRITE_ONLY` buffers created without host data, hence also
`none` until a kernel writes them. -/
structure SimState where
  u : Disp
  r_d : Disp
  nlist_d : NList
  n_neigh_d : List ℕ
  family_d : List ℕ
  damage_d : Option (List ℚ)
  force_d : Option Disp
  force : Option Disp
  damage : Option (List ℚ)
  files : List String
deriving DecidableEq

/-- Python truthiness of the `if write:` guard followed by
`if step % write == 0:`.  `write = 0` is falsy, so the inner modulus is
never evaluated for it; the nested `if` mirrors that evaluation order. -/
def writeBranchTaken (write : Option ℕ) (step : ℕ) : Bool :=
  match write with
  | none => false
  | some w => if w = 0 then false else decide (step % w = 0)

/-- The snapshot path `write_path / f"U_{step}.vtk"`. -/
def meshPath (write_path : String) (step : ℕ) : String :=
  write_path ++ "/U_" ++ toString step ++ ".vtk"

/-- One iteration of the `simulate` loop body (source lines 153-180), in
source order: bond-force kernel on the current `r_d`; copy of the force
buffer to host; `u = integrator(u, force)`; `u = boundary_function(self, u,
step)`; re-creation of `r_d` from `coords + u`; bond-breaking kernel on the
new `r_d`; damage kernel; then the conditional snapshot write. -/
def simStep (m : ModelCL) (bF : BondForceFn) (integrator : Integrator)
    (bf : BoundaryFn) (write : Option ℕ) (wp : String)
    (st : SimState) (step : ℕ) : SimState × List Event :=
  let f := bF st.r_d m.coords st.nlist_d st.n_neigh_d m.max_neighbours m.volume
    m.bond_stiffness
  let u1 := integrator st.u f
  let u2 := bf m u1 step
  let r1 := vadd m.coords u2
  let bb := break_bonds r1 m.coords m.critical_strain 0 st.nlist_d st.n_neigh_d
  let dmg := damage_kernel bb.2 st.family_d
  let baseEvents := [Event.kBondForce st.r_d, Event.copyForce, Event.callIntegrator,
    Event.callBoundary step, Event.refreshCoords r1, Event.kBreakBonds r1, Event.kDamage]
  if writeBranchTaken write step then
    ({ st with
        u := u2
        r_d := r1
        nlist_d := bb.1
        n_neigh_d := bb.2
        damage_d := some dmg
        force_d := some f
        force := some f
        damage := some dmg
        files := st.files ++ [meshPath wp step] },
      baseEvents ++ [Event.copyDamage, Event.writeMesh (meshPath wp step)])
  else
    ({ st with
        u := u2
        r_d := r1
        nlist_d := bb.1
        n_neigh_d := bb.2
        damage_d := some dmg
        force_d := some f
        force := some f },
      baseEvents)

/-- The `simulate` loop over a list of step numbers, accumulating the trace. -/
def simLoop (m : ModelCL) (bF : BondForceFn) (integrator : Integrator)
    (bf : BoundaryFn) (write : Option ℕ) (wp : String) :
    SimState → List ℕ → SimState × List Event
  | st, [] => (st, [])
  | st, t :: rest =>
    let s1 := simStep m bF integrator bf write wp st t
    let s2 := simLoop m bF integrator bf write wp s1.1 rest
    (s2.1, s1.2 ++ s2.2)

/-- Result of `Model._simulate_initialise`. -/
structure InitData where
  nlist : NList
  n_neigh : List ℕ
  u : Disp
  boundary_function : BoundaryFn

/-- Modelled from the spec: `Model._simulate_initialise` (parent-class code
absent from the embedded file).  Spec 6: the connectivity defaults to the
pair captured at model construction, the displacement defaults to zero, and
the boundary function defaults to the identity. -/
def simulate_initialise (m : ModelCL) (boundary_function : Option BoundaryFn)
    (u : Option Disp) (connectivity : Option (NList × List ℕ)) : InitData :=
  let conn := connectivity.getD (m.initial_nlist, m.initial_n_neigh)
  { nlist := conn.1
    n_neigh := conn.2
    u := u.getD (List.replicate m.nnodes zeroVec)
    boundary_function := boundary_function.getD (fun _ v _ => v) }

/-- The state at the start of the loop (source lines 128-151): `r_d` holds
`coords + u`, the connectivity buffers hold the initialised host arrays,
`family_d` holds the family counts, and the write-only buffers are
unwritten. -/
def initState (m : ModelCL) (init : InitData) : SimState :=
  { u := init.u
    r_d := vadd m.coords init.u
    nlist_d := init.nlist
    n_neigh_d := init.n_neigh
    family_d := m.family
    damage_d := none
    force_d := none
    force := none
    damage := none
    files := [] }

/-- The post-loop synchronisation (source lines 182-184): copy damage,
neighbour list and active counts to host, in that order, once each. -/
def finalSync : List Event := [Event.copyDamage, Event.copyNlist, Event.copyNNeigh]

/-- What a `simulate` call returns, together with the run's event trace and
the snapshot files it emitted.  `damage` is the content of the damage
device buffer at the final copy; `none` records that the buffer was never
written by the damage kernel (a `steps = 0` run copies back unspecified
`np.empty` memory). -/
structure RunResult where
  u : Disp
  damage : Option (List ℚ)
  nlist : NList
  n_neigh : List ℕ
  trace : List Event
  files : List String
deriving DecidableEq

/-- Embedding of `ModelCL.simulate` (source lines 73-185): initialise,
create buffers, loop over `trange(first_step, first_step + steps)`, then
synchronise damage, neighbour list and active counts and return
`(u, damage, (nlist, n_neigh))`. -/
def simulate (m : ModelCL) (bF : BondForceFn) (steps : ℕ) (integrator : Integrator)
    (boundary_function : Option BoundaryFn) (u : Option Disp)
    (connectivity : Option (NList × List ℕ)) (first_step : ℕ)
    (write : Option ℕ) (write_path : String) : RunResult :=
  let init := simulate_initialise m boundary_function u connectivity
  let st0 := initState m init
  let res := simLoop m bF integrator init.boundary_function write write_path st0
    (List.range' first_step steps)
  { u := res.1.u
    damage := res.1.damage_d
    nlist := res.1.nlist_d
    n_neigh := res.1.n_neigh_d
    trace := res.2 ++ finalSync
    files := res.1.files }

/-- The state after the first `k` loop iterations of a `simulate` run. -/
def stateAfter (m : ModelCL) (bF : BondForceFn) (steps : ℕ) (integrator : Integrator)
    (boundary_function : Option BoundaryFn) (u : Option Disp)
    (connectivity : Option (NList × List ℕ)) (first_step : ℕ)
    (write : Option ℕ) (write_path : String) (k : ℕ) : SimState :=
  let init := simulate_initialise m boundary_function u connectivity
  (simLoop m bF integrator init.boundary_function write write_path
    (initState m init) ((List.range' first_step steps).take k)).1

/-- The per-step action sequence as the spec orders it (spec 4.5, items
1-7): Force Kernel on the current device coordinates; force copy to host;
integrator call on `(u, force)`; boundary call on `(model, u, step)`;
device coordinate refresh from `coords` plus the boundary-adjusted
displacement; Breaking Kernel on those refreshed coordinates; Damage
Kernel; then, when the write interval hits, the damage copy and the
snapshot tagged with the step number. -/
def specStepEvents (m : ModelCL) (bF : BondForceFn) (integrator : Integrator)
    (bf : BoundaryFn) (write : Option ℕ) (wp : String)
    (st : SimState) (step : ℕ) : List Event :=
  let force := bF st.r_d m.coords st.nlist_d st.n_neigh_d m.max_neighbours m.volume
    m.bond_stiffness
  let uAdj := bf m (integrator st.u force) step
  let rNew := vadd m.coords uAdj
  [Event.kBondForce st.r_d, Event.copyForce, Event.callIntegrator,
    Event.callBoundary step, Event.refreshCoords rNew, Event.kBreakBonds rNew,
    Event.kDamage]
  ++ (if writeBranchTaken write step then
      [Event.copyDamage, Event.writeMesh (meshPath wp step)] else [])

/-- The spec-side trace of the whole loop: the ordered per-step sequences
of `specStepEvents`, one per step number, with the state advanced between
steps. -/
def specLoopTrace (m : ModelCL) (bF : BondForceFn) (integrator : Integrator)
    (bf : BoundaryFn) (write : Option ℕ) (wp : String) :
    SimState → List ℕ → List Event
  | _, [] => []
  | st, t :: rest =>
    specStepEvents m bF integrator bf write wp st t ++
      specLoopTrace m bF integrator bf write wp
        (simStep m bF integrator bf write wp st t).1 rest

/-- Equality of two run states on everything the simulation itself reads:
host displacement and the coordinate, connectivity, family, damage and
force buffers — all fields except the host damage scratch array and the
emitted-files log, which only the snapshot branch touches. -/
def CoreEq (a b : SimState) : Prop :=
  a.u = b.u ∧ a.r_d = b.r_d ∧ a.nlist_d = b.nlist_d ∧ a.n_neigh_d = b.n_neigh_d ∧
    a.family_d = b.family_d ∧ a.damage_d = b.damage_d ∧ a.force_d = b.force_d ∧
    a.force = b.force

/-- What `ModelCL.__init__` observes about a context object: whether it is
a genuine `pyopencl` `Context` (the `type(...) is cl._cl.Context` test) and
whether its device 0 supports double-precision floating point (the
`double_fp_support(self.context.devices[0])` test). -/
structure CLDeviceContext where
  is_cl_context : Bool
  double_fp : Bool
deriving DecidableEq

/-- The construction-time errors of `ModelCL.__init__`: `ContextError` when
no suitable context was found, `TypeError` for a supplied non-context, and
`ValueError` for a supplied context without double-precision support. -/
inductive InitError where
  | contextError
  | typeError
  | valueError
deriving DecidableEq

/-- Embedding of the context handling of `ModelCL.__init__` (source lines
17-31).  `context` is the caller-supplied argument; `got` is what
`get_context()` returned when no context was supplied (`none` models a
return value that is not a `pyopencl` context, e.g. Python `None`).  A
supplied context is type-checked and then checked for double-precision
support before the constructor proceeds. -/
def modelCL_init_context (context : Option CLDeviceContext)
    (got : Option CLDeviceContext) : Except InitError CLDeviceContext :=
  match context with
  | none =>
    match got with
    | none => Except.error InitError.contextError
    | some c =>
      if c.is_cl_context then Except.ok c else Except.error InitError.contextError
  | some c =>
    if c.is_cl_context then
      if c.double_fp then Except.ok c else Except.error InitError.valueError
    else Except.error InitError.typeError


/-- A concrete two-node model used to instantiate hypotheses of the proved
theorems: two unit-separated nodes, each the other's only neighbour. -/
def mEx : ModelCL :=
  { nnodes := 2
    coords := [((0 : ℚ), 0, 0), ((1 : ℚ), 0, 0)]
    volume := [1, 1]
    family := [1, 1]
    initial_nlist := [[1], [0]]
    initial_n_neigh := [1, 1]
    max_neighbours := 1
    bond_stiffness := 1
    critical_strain := 1 / 2 }

/-- A concrete bond-force function (identically zero force). -/
def bFEx : BondForceFn := fun _ _ _ _ _ _ _ => [zeroVec, zeroVec]

/-- A concrete integrator that keeps the displacement unchanged. -/
def integEx : Integrator := fun u _ => u

/-! ## Properties of the Bond Breaking Kernel -/

theorem breakRow_count_le (r r0 : Disp) (s : ℚ) (i : ℕ) (row : List ℕ) (c : ℕ) :
    (breakRow r r0 s i row c).2 ≤ c := by
  unfold breakRow
  calc ((row.take c).filter (fun j => ! bondBroken r r0 i j s)).length
      ≤ (row.take c).length := List.length_filter_le _ _
    _ = min c row.length := List.length_take c row
    _ ≤ c := Nat.min_le_left _ _

theorem breakRow_idem (r r0 : Disp) (s : ℚ) (i : ℕ) (row : List ℕ) (c : ℕ) :
    breakRow r r0 s i (breakRow r r0 s i row c).1 (breakRow r r0 s i row c).2 =
      breakRow r r0 s i row c := by
  unfold breakRow
  set p : ℕ → Bool := fun j => bondBroken r r0 i j s with hp
  set K : List ℕ := (row.take c).filter (fun j => ! p j) with hK
  set B : List ℕ := (row.take c).filter p with hB
  have hKmem : ∀ j ∈ K, (! p j) = true := by
    intro j hj
    exact (List.mem_filter.mp hj).2
  have htake : (K ++ B ++ row.drop c).take K.length = K := by
    rw [List.append_assoc]
    exact List.take_left ..
  have hdrop : (K ++ B ++ row.drop c).drop K.length = B ++ row.drop c := by
    rw [List.append_assoc]
    exact List.drop_left ..
  have hkeep : K.filter (fun j => ! p j) = K := List.filter_eq_self.mpr hKmem
  have hbrk : K.filter p = [] := by
    refine List.filter_eq_nil_iff.mpr ?_
    intro j hj
    have := hKmem j hj
    simp only [Bool.not_eq_true'] at this
    simp [this]
  simp only [htake, hdrop, hkeep, hbrk, List.nil_append, List.append_nil]
  rw [List.append_assoc]

theorem break_bonds_idem_aux (r r0 : Disp) (s : ℚ) :
    ∀ (i : ℕ) (nl : NList) (nn : List ℕ),
      break_bonds r r0 s i (break_bonds r r0 s i nl nn).1 (break_bonds r r0 s i nl nn).2 =
        break_bonds r r0 s i nl nn := by
  intro i nl
  induction nl generalizing i with
  | nil => intro nn; simp [break_bonds]
  | cons row nl ih =>
    intro nn
    cases nn with
    | nil => simp [break_bonds]
    | cons c nn =>
      simp only [break_bonds]
      rw [breakRow_idem, ih]

/-- Claim C5: the bond-breaking operation is idempotent: for every
connectivity state `(nl, nn)` and displacement field (current coordinates
`r` against reference coordinates `r0`), a second invocation of the
Breaking Kernel on the output of the first, with the coordinates unchanged,
breaks zero additional bonds: the neighbour list and active counts are
returned unchanged. -/
theorem claim_c5_break_bonds_idempotent (r r0 : Disp) (s : ℚ) (nl : NList) (nn : List ℕ) :
    break_bonds r r0 s 0 (break_bonds r r0 s 0 nl nn).1 (break_bonds r r0 s 0 nl nn).2 =
      break_bonds r r0 s 0 nl nn :=
  break_bonds_idem_aux r r0 s 0 nl nn

theorem break_bonds_count_le (r r0 : Disp) (s : ℚ) :
    ∀ (i : ℕ) (nl : NList) (nn : List ℕ) (j : ℕ),
      (break_bonds r r0 s i nl nn).2.getD j 0 ≤ nn.getD j 0 := by
  intro i nl
  induction nl generalizing i with
  | nil => intro nn j; simp [break_bonds]
  | cons row nl ih =>
    intro nn j
    cases nn with
    | nil => simp [break_bonds]
    | cons c nn =>
      cases j with
      | zero => simpa [break_bonds] using breakRow_count_le r r0 s i row c
      | succ j => simpa [break_bonds] using ih (i + 1) nn j

theorem break_bonds_length (r r0 : Disp) (s : ℚ) :
    ∀ (i : ℕ) (nl : NList) (nn : List ℕ),
      (break_bonds r r0 s i nl nn).1.length = min nl.length nn.length ∧
        (break_bonds r r0 s i nl nn).2.length = min nl.length nn.length := by
  intro i nl
  induction nl generalizing i with
  | nil => intro nn; simp [break_bonds]
  | cons row nl ih =>
    intro nn
    cases nn with
    | nil => simp [break_bonds]
    | cons c nn =>
      have := ih (i + 1) nn
      simp [break_bonds, this.1, this.2, Nat.succ_min_succ]

/-! ## Properties of the Damage Kernel -/

theorem damage_kernel_length :
    ∀ (nn fam : List ℕ), (damage_kernel nn fam).length = min nn.length fam.length := by
  intro nn
  induction nn with
  | nil => intro fam; simp [damage_kernel]
  | cons n ns ih =>
    intro fam
    cases fam with
    | nil => simp [damage_kernel]
    | cons f fs => simp [damage_kernel, ih, Nat.succ_min_succ]

theorem damage_kernel_getD (nn fam : List ℕ) (j : ℕ)
    (hj : j < min nn.length fam.length) (h : nn.getD j 0 ≤ fam.getD j 0) :
    0 ≤ (damage_kernel nn fam).getD j 0 ∧ (damage_kernel nn fam).getD j 0 ≤ 1 ∧
      ((damage_kernel nn fam).getD j 0 = 0 ↔ nn.getD j 0 = fam.getD j 0) := by
  induction nn generalizing fam j with
  | nil => simp at hj
  | cons n ns ih =>
    cases fam with
    | nil => simp at hj
    | cons f fs =>
      cases j with
      | succ j =>
        simp only [damage_kernel, List.getD_cons_succ] at h ⊢
        refine ih fs j ?_ h
        have := hj
        simp only [List.length_cons, Nat.succ_min_succ] at this
        omega
      | zero =>
        simp only [damage_kernel, List.getD_cons_zero] at h ⊢
        by_cases hf : f = 0
        · subst hf
          have hn : n = 0 := Nat.le_zero.mp h
          subst hn
          norm_num
        · simp only [if_neg hf]
          have hf0 : (0 : ℚ) < (f : ℚ) := by
            exact_mod_cast Nat.pos_of_ne_zero hf
          have hnf : (n : ℚ) ≤ (f : ℚ) := by exact_mod_cast h
          refine ⟨div_nonneg (by linarith) hf0.le, ?_, ?_⟩
          · rw [div_le_one hf0]
            linarith
          · rw [div_eq_zero_iff]
            constructor
            · rintro (h1 | h2)
              · have : (n : ℚ) = (f : ℚ) := by linarith
                exact_mod_cast this
              · exact absurd h2 (ne_of_gt hf0)
            · intro he
              left
              have : (n : ℚ) = (f : ℚ) := by exact_mod_cast he
              linarith

/-! ## Step and loop invariants -/

theorem simStep_core (m : ModelCL) (bF : BondForceFn) (integrator : Integrator)
    (bf : BoundaryFn) (write : Option ℕ) (wp : String) (st : SimState) (step : ℕ) :
    ∃ r : Disp,
      (simStep m bF integrator bf write wp st step).1.nlist_d =
          (break_bonds r m.coords m.critical_strain 0 st.nlist_d st.n_neigh_d).1 ∧
        (simStep m bF integrator bf write wp st step).1.n_neigh_d =
          (break_bonds r m.coords m.critical_strain 0 st.nlist_d st.n_neigh_d).2 ∧
        (simStep m bF integrator bf write wp st step).1.family_d = st.family_d ∧
        (simStep m bF integrator bf write wp st step).1.damage_d =
          some (damage_kernel
            (break_bonds r m.coords m.critical_strain 0 st.nlist_d st.n_neigh_d).2
            st.family_d) := by
  refine ⟨vadd m.coords (bf m (integrator st.u (bF st.r_d m.coords st.nlist_d st.n_neigh_d
    m.max_neighbours m.volume m.bond_stiffness)) step), ?_⟩
  simp only [simStep]
  split <;> simp

theorem simStep_n_neigh_le (m : ModelCL) (bF : BondForceFn) (integrator : Integrator)
    (bf : BoundaryFn) (write : Option ℕ) (wp : String) (st : SimState) (step j : ℕ) :
    (simStep m bF integrator bf write wp st step).1.n_neigh_d.getD j 0 ≤
      st.n_neigh_d.getD j 0 := by
  obtain ⟨r, -, h2, -, -⟩ := simStep_core m bF integrator bf write wp st step
  rw [h2]
  exact break_bonds_count_le r m.coords m.critical_strain 0 st.nlist_d st.n_neigh_d j

theorem simLoop_n_neigh_le (m : ModelCL) (bF : BondForceFn) (integrator : Integrator)
    (bf : BoundaryFn) (write : Option ℕ) (wp : String) :
    ∀ (l : List ℕ) (st : SimState) (j : ℕ),
      (simLoop m bF integrator bf write wp st l).1.n_neigh_d.getD j 0 ≤
        st.n_neigh_d.getD j 0 := by
  intro l
  induction l with
  | nil => intro st j; simp [simLoop]
  | cons t rest ih =>
    intro st j
    simp only [simLoop]
    exact le_trans (ih _ j) (simStep_n_neigh_le m bF integrator bf write wp st t j)

theorem simLoop_family (m : ModelCL) (bF : BondForceFn) (integrator : Integrator)
    (bf : BoundaryFn) (write : Option ℕ) (wp : String) :
    ∀ (l : List ℕ) (st : SimState),
      (simLoop m bF integrator bf write wp st l).1.family_d = st.family_d := by
  intro l
  induction l with
  | nil => intro st; simp [simLoop]
  | cons t rest ih =>
    intro st
    simp only [simLoop]
    rw [ih]
    obtain ⟨r, -, -, h3, -⟩ := simStep_core m bF integrator bf write wp st t
    exact h3

theorem simLoop_append (m : ModelCL) (bF : BondForceFn) (integrator : Integrator)
    (bf : BoundaryFn) (write : Option ℕ) (wp : String) :
    ∀ (l₁ l₂ : List ℕ) (st : SimState),
      simLoop m bF integrator bf write wp st (l₁ ++ l₂) =
        ((simLoop m bF integrator bf write wp
            (simLoop m bF integrator bf write wp st l₁).1 l₂).1,
          (simLoop m bF integrator bf write wp st l₁).2 ++
            (simLoop m bF integrator bf write wp
              (simLoop m bF integrator bf write wp st l₁).1 l₂).2) := by
  intro l₁
  induction l₁ with
  | nil => intro l₂ st; simp [simLoop]
  | cons t rest ih =>
    intro l₂ st
    rw [List.cons_append]
    simp only [simLoop]
    rw [ih, List.append_assoc]

theorem simLoop_damage_inv (m : ModelCL) (bF : BondForceFn) (integrator : Integrator)
    (bf : BoundaryFn) (write : Option ℕ) (wp : String) :
    ∀ (l : List ℕ) (st : SimState), l ≠ [] →
      (simLoop m bF integrator bf write wp st l).1.damage_d =
        some (damage_kernel (simLoop m bF integrator bf write wp st l).1.n_neigh_d
          (simLoop m bF integrator bf write wp st l).1.family_d) := by
  intro l
  induction l with
  | nil => intro st h; exact absurd rfl h
  | cons t rest ih =>
    intro st _
    cases rest with
    | cons t' rest' => simpa [simLoop] using ih _ (by simp)
    | nil =>
      simp only [simLoop]
      obtain ⟨r, -, h2, h3, h4⟩ := simStep_core m bF integrator bf write wp st t
      rw [h4, h2, h3]

/-! ## Claim C6: connectivity invariants across a run -/

/-- Claim C6: along any `simulate` run whose initial connectivity satisfies
`n_neigh[i] <= family[i]` and whose family counts satisfy
`family[i] <= max_neighbours`, at every point `k` of the run (the state
after the `k`-th loop iteration, hence after every Breaking Kernel
invocation) `0 <= n_neigh[i] <= family[i] <= max_neighbours` holds (the
lower bound is inherent to `ℕ`), the active counts are monotonically
non-increasing in the step index, and the family buffer is never mutated. -/
theorem claim_c6_connectivity_invariant (m : ModelCL) (bF : BondForceFn)
    (steps : ℕ) (integrator : Integrator) (boundary_function : Option BoundaryFn)
    (u : Option Disp) (connectivity : Option (NList × List ℕ)) (first_step : ℕ)
    (write : Option ℕ) (write_path : String) (k l i : ℕ)
    (h1 : ∀ j < (simulate_initialise m boundary_function u connectivity).n_neigh.length,
      (simulate_initialise m boundary_function u connectivity).n_neigh.getD j 0 ≤
        m.family.getD j 0)
    (h2 : ∀ j < m.family.length, m.family.getD j 0 ≤ m.max_neighbours)
    (hkl : k ≤ l) :
    (stateAfter m bF steps integrator boundary_function u connectivity first_step
          write write_path l).n_neigh_d.getD i 0 ≤
        (stateAfter m bF steps integrator boundary_function u connectivity first_step
          write write_path k).n_neigh_d.getD i 0 ∧
      (stateAfter m bF steps integrator boundary_function u connectivity first_step
          write write_path k).n_neigh_d.getD i 0 ≤ m.family.getD i 0 ∧
      m.family.getD i 0 ≤ m.max_neighbours ∧
      (stateAfter m bF steps integrator boundary_function u connectivity first_step
        write write_path k).family_d = m.family := by
  have h1' : ∀ j, (simulate_initialise m boundary_function u connectivity).n_neigh.getD j 0 ≤
      m.family.getD j 0 := by
    intro j
    by_cases hj : j < (simulate_initialise m boundary_function u connectivity).n_neigh.length
    · exact h1 j hj
    · rw [List.getD_eq_default _ _ (le_of_not_lt hj)]
      exact Nat.zero_le _
  have h2' : ∀ j, m.family.getD j 0 ≤ m.max_neighbours := by
    intro j
    by_cases hj : j < m.family.length
    · exact h2 j hj
    · rw [List.getD_eq_default _ _ (le_of_not_lt hj)]
      exact Nat.zero_le _
  have hsplit : (List.range' first_step steps).take l =
      (List.range' first_step steps).take k ++
        (((List.range' first_step steps).take l).drop k) := by
    conv_lhs => rw [← List.take_append_drop k ((List.range' first_step steps).take l)]
    rw [List.take_take, min_eq_left hkl]
  refine ⟨?_, ?_, h2' i, ?_⟩
  · simp only [stateAfter]
    rw [hsplit, simLoop_append]
    exact simLoop_n_neigh_le m bF integrator _ write write_path _ _ i
  · refine le_trans ?_ (h1' i)
    simp only [stateAfter]
    exact simLoop_n_neigh_le m bF integrator _ write write_path _ _ i
  · simp only [stateAfter]
    rw [simLoop_family]
    rfl

/-- Closed-form instantiation of `claim_c6_connectivity_invariant` at the
concrete two-node model, one step, comparing states 0 and 1 at node 0. -/
theorem claim_c6_connectivity_invariant_witness :
    (stateAfter mEx bFEx 1 integEx none none none 1 none "out" 1).n_neigh_d.getD 0 0 ≤
        (stateAfter mEx bFEx 1 integEx none none none 1 none "out" 0).n_neigh_d.getD 0 0 ∧
      (stateAfter mEx bFEx 1 integEx none none none 1 none "out" 0).n_neigh_d.getD 0 0 ≤
        mEx.family.getD 0 0 ∧
      mEx.family.getD 0 0 ≤ mEx.max_neighbours ∧
      (stateAfter mEx bFEx 1 integEx none none none 1 none "out" 0).family_d = mEx.family :=
  claim_c6_connectivity_invariant mEx bFEx 1 integEx none none none 1 none "out" 0 1 0
    (by decide) (by decide) (by decide)


theorem simStep_lengths (m : ModelCL) (bF : BondForceFn) (integrator : Integrator)
    (bf : BoundaryFn) (write : Option ℕ) (wp : String) (st : SimState) (step : ℕ)
    (h : st.nlist_d.length = st.n_neigh_d.length) :
    (simStep m bF integrator bf write wp st step).1.nlist_d.length = st.nlist_d.length ∧
      (simStep m bF integrator bf write wp st step).1.n_neigh_d.length =
        st.nlist_d.length := by
  obtain ⟨r, h1, h2, -, -⟩ := simStep_core m bF integrator bf write wp st step
  have hb := break_bonds_length r m.coords m.critical_strain 0 st.nlist_d st.n_neigh_d
  constructor
  · rw [h1, hb.1, ← h, min_self]
  · rw [h2, hb.2, ← h, min_self]

theorem simLoop_lengths (m : ModelCL) (bF : BondForceFn) (integrator : Integrator)
    (bf : BoundaryFn) (write : Option ℕ) (wp : String) :
    ∀ (l : List ℕ) (st : SimState), st.nlist_d.length = st.n_neigh_d.length →
      (simLoop m bF integrator bf write wp st l).1.nlist_d.length = st.nlist_d.length ∧
        (simLoop m bF integrator bf write wp st l).1.n_neigh_d.length =
          st.nlist_d.length := by
  intro l
  induction l with
  | nil =>
    intro st h
    exact ⟨rfl, h.symm⟩
  | cons t rest ih =>
    intro st h
    have hs := simStep_lengths m bF integrator bf write wp st t h
    have ihr := ih (simStep m bF integrator bf write wp st t).1 (by rw [hs.1, hs.2])
    simp only [simLoop]
    exact ⟨by rw [ihr.1, hs.1], by rw [ihr.2, hs.1]⟩

theorem simulate_eq (m : ModelCL) (bF : BondForceFn) (steps : ℕ)
    (integrator : Integrator) (boundary_function : Option BoundaryFn) (u : Option Disp)
    (connectivity : Option (NList × List ℕ)) (first_step : ℕ) (write : Option ℕ)
    (write_path : String) :
    simulate m bF steps integrator boundary_function u connectivity first_step
        write write_path =
      { u := (simLoop m bF integrator
            (simulate_initialise m boundary_function u connectivity).boundary_function
            write write_path
            (initState m (simulate_initialise m boundary_function u connectivity))
            (List.range' first_step steps)).1.u
        damage := (simLoop m bF integrator
            (simulate_initialise m boundary_function u connectivity).boundary_function
            write write_path
            (initState m (simulate_initialise m boundary_function u connectivity))
            (List.range' first_step steps)).1.damage_d
        nlist := (simLoop m bF integrator
            (simulate_initialise m boundary_function u connectivity).boundary_function
            write write_path
            (initState m (simulate_initialise m boundary_function u connectivity))
            (List.range' first_step steps)).1.nlist_d
        n_neigh := (simLoop m bF integrator
            (simulate_initialise m boundary_function u connectivity).boundary_function
            write write_path
            (initState m (simulate_initialise m boundary_function u connectivity))
            (List.range' first_step steps)).1.n_neigh_d
        trace := (simLoop m bF integrator
            (simulate_initialise m boundary_function u connectivity).boundary_function
            write write_path
            (initState m (simulate_initialise m boundary_function u connectivity))
            (List.range' first_step steps)).2 ++ finalSync
        files := (simLoop m bF integrator
            (simulate_initialise m boundary_function u connectivity).boundary_function
            write write_path
            (initState m (simulate_initialise m boundary_function u connectivity))
            (List.range' first_step steps)).1.files } := rfl

/-! ## Claim C3: damage bounds -/

/-- Claim C3: for a run that executes at least one step (the damage device
buffer is write-only and holds no defined value before the first Damage
Kernel dispatch) and whose initial connectivity is well-formed
(`n_neigh[i] <= family[i]`, arrays of length `nnodes`), the damage field
returned by `simulate` is defined for every node (length `nnodes`, so a
node with `family[i] = 0` also gets a defined value, with no division
failure), and for every node `i`, `0 <= damage[i] <= 1` and
`damage[i] = 0` iff `n_neigh[i] = family[i]` in the returned
connectivity. -/
theorem claim_c3_damage_bounds (m : ModelCL) (bF : BondForceFn) (steps : ℕ)
    (integrator : Integrator) (boundary_function : Option BoundaryFn) (u : Option Disp)
    (connectivity : Option (NList × List ℕ)) (first_step : ℕ) (write : Option ℕ)
    (write_path : String)
    (h1 : ∀ j < (simulate_initialise m boundary_function u connectivity).n_neigh.length,
      (simulate_initialise m boundary_function u connectivity).n_neigh.getD j 0 ≤
        m.family.getD j 0)
    (hl1 : (simulate_initialise m boundary_function u connectivity).nlist.length = m.nnodes)
    (hl2 : (simulate_initialise m boundary_function u connectivity).n_neigh.length = m.nnodes)
    (hl3 : m.family.length = m.nnodes)
    (hs : 1 ≤ steps) :
    ∃ d, (simulate m bF steps integrator boundary_function u connectivity first_step
          write write_path).damage = some d ∧
      d.length = m.nnodes ∧
      ∀ i < m.nnodes, 0 ≤ d.getD i 0 ∧ d.getD i 0 ≤ 1 ∧
        (d.getD i 0 = 0 ↔
          (simulate m bF steps integrator boundary_function u connectivity first_step
              write write_path).n_neigh.getD i 0 = m.family.getD i 0) := by
  have h1' : ∀ j, (simulate_initialise m boundary_function u connectivity).n_neigh.getD j 0 ≤
      m.family.getD j 0 := by
    intro j
    by_cases hj : j < (simulate_initialise m boundary_function u connectivity).n_neigh.length
    · exact h1 j hj
    · rw [List.getD_eq_default _ _ (le_of_not_lt hj)]
      exact Nat.zero_le _
  have hLne : List.range' first_step steps ≠ [] := by
    intro hcon
    have hlr : (List.range' first_step steps).length = steps := by simp
    rw [hcon] at hlr
    simp at hlr
    omega
  have hdmg := simLoop_damage_inv m bF integrator
    (simulate_initialise m boundary_function u connectivity).boundary_function
    write write_path (List.range' first_step steps)
    (initState m (simulate_initialise m boundary_function u connectivity)) hLne
  have hfam : (simLoop m bF integrator
      (simulate_initialise m boundary_function u connectivity).boundary_function
      write write_path
      (initState m (simulate_initialise m boundary_function u connectivity))
      (List.range' first_step steps)).1.family_d = m.family := by
    rw [simLoop_family]
    rfl
  have hlen := simLoop_lengths m bF integrator
    (simulate_initialise m boundary_function u connectivity).boundary_function
    write write_path (List.range' first_step steps)
    (initState m (simulate_initialise m boundary_function u connectivity))
    (by simpa [initState] using hl1.trans hl2.symm)
  have hlen2 : (simLoop m bF integrator
      (simulate_initialise m boundary_function u connectivity).boundary_function
      write write_path
      (initState m (simulate_initialise m boundary_function u connectivity))
      (List.range' first_step steps)).1.n_neigh_d.length = m.nnodes := by
    have := hlen.2
    simpa [initState, hl1] using this
  have hle : ∀ j, (simLoop m bF integrator
      (simulate_initialise m boundary_function u connectivity).boundary_function
      write write_path
      (initState m (simulate_initialise m boundary_function u connectivity))
      (List.range' first_step steps)).1.n_neigh_d.getD j 0 ≤ m.family.getD j 0 := by
    intro j
    refine le_trans ?_ (h1' j)
    exact simLoop_n_neigh_le m bF integrator _ write write_path _ _ j
  refine ⟨damage_kernel (simLoop m bF integrator
      (simulate_initialise m boundary_function u connectivity).boundary_function
      write write_path
      (initState m (simulate_initialise m boundary_function u connectivity))
      (List.range' first_step steps)).1.n_neigh_d m.family, ?_, ?_, ?_⟩
  · rw [simulate_eq]
    rw [hdmg, hfam]
  · rw [damage_kernel_length, hlen2, hl3, min_self]
  · intro i hi
    have hj : i < min ((simLoop m bF integrator
        (simulate_initialise m boundary_function u connectivity).boundary_function
        write write_path
        (initState m (simulate_initialise m boundary_function u connectivity))
        (List.range' first_step steps)).1.n_neigh_d.length) m.family.length := by
      rw [hlen2, hl3, min_self]
      exact hi
    have hdk := damage_kernel_getD _ m.family i hj (hle i)
    refine ⟨hdk.1, hdk.2.1, ?_⟩
    rw [simulate_eq]
    exact hdk.2.2

/-- Closed-form instantiation of `claim_c3_damage_bounds` at the concrete
two-node model with one simulation step. -/
theorem claim_c3_damage_bounds_witness :
    ∃ d, (simulate mEx bFEx 1 integEx none none none 1 none "out").damage = some d ∧
      d.length = mEx.nnodes ∧
      ∀ i < mEx.nnodes, 0 ≤ d.getD i 0 ∧ d.getD i 0 ≤ 1 ∧
        (d.getD i 0 = 0 ↔
          (simulate mEx bFEx 1 integEx none none none 1 none "out").n_neigh.getD i 0 =
            mEx.family.getD i 0) :=
  claim_c3_damage_bounds mEx bFEx 1 integEx none none none 1 none "out"
    (by decide) (by decide) (by decide) (by decide) (by decide)


/-! ## Claim C1: per-step action order -/

theorem simStep_trace (m : ModelCL) (bF : BondForceFn) (integrator : Integrator)
    (bf : BoundaryFn) (write : Option ℕ) (wp : String) (st : SimState) (step : ℕ) :
    (simStep m bF integrator bf write wp st step).2 =
      specStepEvents m bF integrator bf write wp st step := by
  unfold simStep specStepEvents
  split <;> rfl

theorem simLoop_trace (m : ModelCL) (bF : BondForceFn) (integrator : Integrator)
    (bf : BoundaryFn) (write : Option ℕ) (wp : String) :
    ∀ (l : List ℕ) (st : SimState),
      (simLoop m bF integrator bf write wp st l).2 =
        specLoopTrace m bF integrator bf write wp st l := by
  intro l
  induction l with
  | nil => intro st; rfl
  | cons t rest ih =>
    intro st
    simp only [simLoop, specLoopTrace]
    rw [simStep_trace, ih]

/-- Claim C1: the trace of a `simulate` run is, for every step `t` in
`[first_step, first_step + steps)` in order, exactly the spec-ordered
sequence of `specStepEvents` — bond-force kernel on the current device
coordinates, force copy to host, integrator call on `(u, force)`, boundary
call on `(model, u, t)`, refresh of the device coordinate buffer from
`coords + u`, bond-breaking kernel, damage kernel (then any snapshot
events) — followed by the final synchronisation.  In `specStepEvents` the
refreshed coordinates are `coords` plus the boundary-adjusted displacement
`bf m (integrator u force) t`, and the breaking-kernel event carries those
same coordinates, so the breaking kernel reads the boundary-adjusted
state. -/
theorem claim_c1_step_order (m : ModelCL) (bF : BondForceFn) (steps : ℕ)
    (integrator : Integrator) (boundary_function : Option BoundaryFn) (u : Option Disp)
    (connectivity : Option (NList × List ℕ)) (first_step : ℕ) (write : Option ℕ)
    (write_path : String) :
    (simulate m bF steps integrator boundary_function u connectivity first_step
        write write_path).trace =
      specLoopTrace m bF integrator
          (simulate_initialise m boundary_function u connectivity).boundary_function
          write write_path
          (initState m (simulate_initialise m boundary_function u connectivity))
          (List.range' first_step steps) ++ finalSync := by
  rw [show (simulate m bF steps integrator boundary_function u connectivity first_step
      write write_path).trace =
    (simLoop m bF integrator
        (simulate_initialise m boundary_function u connectivity).boundary_function
        write write_path
        (initState m (simulate_initialise m boundary_function u connectivity))
        (List.range' first_step steps)).2 ++ finalSync from rfl]
  rw [simLoop_trace]

/-! ## Claim C2: post-loop synchronisation and return value -/

theorem simStep_no_final_copy (m : ModelCL) (bF : BondForceFn) (integrator : Integrator)
    (bf : BoundaryFn) (write : Option ℕ) (wp : String) (st : SimState) (step : ℕ) :
    Event.copyNlist ∉ (simStep m bF integrator bf write wp st step).2 ∧
      Event.copyNNeigh ∉ (simStep m bF integrator bf write wp st step).2 := by
  refine ⟨?_, ?_⟩ <;> (unfold simStep; split <;> simp)

theorem simLoop_no_final_copy (m : ModelCL) (bF : BondForceFn) (integrator : Integrator)
    (bf : BoundaryFn) (write : Option ℕ) (wp : String) :
    ∀ (l : List ℕ) (st : SimState),
      Event.copyNlist ∉ (simLoop m bF integrator bf write wp st l).2 ∧
        Event.copyNNeigh ∉ (simLoop m bF integrator bf write wp st l).2 := by
  intro l
  induction l with
  | nil => intro st; simp [simLoop]
  | cons t rest ih =>
    intro st
    have h1 := simStep_no_final_copy m bF integrator bf write wp st t
    have h2 := ih (simStep m bF integrator bf write wp st t).1
    simp only [simLoop, List.mem_append, not_or]
    exact ⟨⟨h1.1, h2.1⟩, ⟨h1.2, h2.2⟩⟩

/-- Claim C2: for every run — the loop having executed or not — the trace
ends with one damage copy, one neighbour-list copy and one active-count
copy after the loop (neither connectivity copy occurs anywhere in the loop
trace), and the returned record is exactly the synchronized final state:
displacement, damage buffer, neighbour list and active counts of the state
after all `steps` iterations. -/
theorem claim_c2_final_sync (m : ModelCL) (bF : BondForceFn) (steps : ℕ)
    (integrator : Integrator) (boundary_function : Option BoundaryFn) (u : Option Disp)
    (connectivity : Option (NList × List ℕ)) (first_step : ℕ) (write : Option ℕ)
    (write_path : String) :
    ∃ pre,
      (simulate m bF steps integrator boundary_function u connectivity first_step
          write write_path).trace =
        pre ++ [Event.copyDamage, Event.copyNlist, Event.copyNNeigh] ∧
      Event.copyNlist ∉ pre ∧ Event.copyNNeigh ∉ pre ∧
      (simulate m bF steps integrator boundary_function u connectivity first_step
          write write_path).u =
        (stateAfter m bF steps integrator boundary_function u connectivity first_step
          write write_path steps).u ∧
      (simulate m bF steps integrator boundary_function u connectivity first_step
          write write_path).damage =
        (stateAfter m bF steps integrator boundary_function u connectivity first_step
          write write_path steps).damage_d ∧
      (simulate m bF steps integrator boundary_function u connectivity first_step
          write write_path).nlist =
        (stateAfter m bF steps integrator boundary_function u connectivity first_step
          write write_path steps).nlist_d ∧
      (simulate m bF steps integrator boundary_function u connectivity first_step
          write write_path).n_neigh =
        (stateAfter m bF steps integrator boundary_function u connectivity first_step
          write write_path steps).n_neigh_d := by
  have htake : (List.range' first_step steps).take steps = List.range' first_step steps :=
    List.take_of_length_le (by simp)
  have hSA : stateAfter m bF steps integrator boundary_function u connectivity first_step
      write write_path steps =
      (simLoop m bF integrator
        (simulate_initialise m boundary_function u connectivity).boundary_function
        write write_path
        (initState m (simulate_initialise m boundary_function u connectivity))
        (List.range' first_step steps)).1 := by
    simp only [stateAfter]
    rw [htake]
  have hmem := simLoop_no_final_copy m bF integrator
    (simulate_initialise m boundary_function u connectivity).boundary_function
    write write_path (List.range' first_step steps)
    (initState m (simulate_initialise m boundary_function u connectivity))
  refine ⟨(simLoop m bF integrator
      (simulate_initialise m boundary_function u connectivity).boundary_function
      write write_path
      (initState m (simulate_initialise m boundary_function u connectivity))
      (List.range' first_step steps)).2, rfl, hmem.1, hmem.2, ?_, ?_, ?_, ?_⟩ <;>
    rw [hSA] <;> rfl

/-! ## Claim C9: a zero-step run -/

/-- Claim C9: with `steps = 0` the loop body never runs: the trace is just
the three post-loop synchronisation copies (so no kernel is dispatched and
neither the integrator nor the boundary function is ever called), the
returned displacement is the initialised one — the supplied `u`, or zeros
if `u` is `None` — the damage buffer was never written, and no snapshot
file is emitted. -/
theorem claim_c9_zero_steps (m : ModelCL) (bF : BondForceFn)
    (integrator : Integrator) (boundary_function : Option BoundaryFn) (u : Option Disp)
    (connectivity : Option (NList × List ℕ)) (first_step : ℕ) (write : Option ℕ)
    (write_path : String) :
    (simulate m bF 0 integrator boundary_function u connectivity first_step
        write write_path).trace =
      [Event.copyDamage, Event.copyNlist, Event.copyNNeigh] ∧
    (simulate m bF 0 integrator boundary_function u connectivity first_step
        write write_path).u = u.getD (List.replicate m.nnodes zeroVec) ∧
    (simulate m bF 0 integrator boundary_function u connectivity first_step
        write write_path).damage = none ∧
    (simulate m bF 0 integrator boundary_function u connectivity first_step
        write write_path).files = [] :=
  ⟨rfl, rfl, rfl, rfl⟩

/-! ## Claim C4: connectivity round-trip -/

/-- Claim C4: feeding the connectivity pair returned by one `simulate` run
into a fresh run with `steps = 0` returns that pair unchanged, element for
element. -/
theorem claim_c4_connectivity_roundtrip (m : ModelCL) (bF : BondForceFn) (steps : ℕ)
    (integrator : Integrator) (boundary_function : Option BoundaryFn)
    (u u0 : Option Disp) (connectivity : Option (NList × List ℕ))
    (first_step first_step0 : ℕ) (write write0 : Option ℕ)
    (write_path write_path0 : String) :
    (simulate m bF 0 integrator boundary_function u0
        (some ((simulate m bF steps integrator boundary_function u connectivity
            first_step write write_path).nlist,
          (simulate m bF steps integrator boundary_function u connectivity
            first_step write write_path).n_neigh))
        first_step0 write0 write_path0).nlist =
      (simulate m bF steps integrator boundary_function u connectivity
        first_step write write_path).nlist ∧
    (simulate m bF 0 integrator boundary_function u0
        (some ((simulate m bF steps integrator boundary_function u connectivity
            first_step write write_path).nlist,
          (simulate m bF steps integrator boundary_function u connectivity
            first_step write write_path).n_neigh))
        first_step0 write0 write_path0).n_neigh =
      (simulate m bF steps integrator boundary_function u connectivity
        first_step write write_path).n_neigh :=
  ⟨rfl, rfl⟩

/-! ## Claim C8: double-precision support is checked at construction -/

/-- Claim C8: constructing a `ModelCL` with a supplied context whose device
0 lacks double-precision support raises an error before the constructor
returns — a `ValueError` when the object is a genuine context, a
`TypeError` already at the type check otherwise.  The error is raised by
`__init__`; `simulate` contains no such check. -/
theorem claim_c8_double_fp_error (c : CLDeviceContext) (got : Option CLDeviceContext)
    (h : c.double_fp = false) :
    ∃ e, modelCL_init_context (some c) got = Except.error e := by
  by_cases hc : c.is_cl_context = true
  · exact ⟨InitError.valueError, by simp [modelCL_init_context, hc, h]⟩
  · exact ⟨InitError.typeError, by simp [modelCL_init_context, hc]⟩

/-- Closed-form instantiation of `claim_c8_double_fp_error`: a genuine
context object without double-precision support is rejected. -/
theorem claim_c8_double_fp_error_witness :
    ∃ e, modelCL_init_context (some { is_cl_context := true, double_fp := false })
        none = Except.error e :=
  claim_c8_double_fp_error { is_cl_context := true, double_fp := false } none rfl


/-! ## Claim C7: snapshot writing -/

theorem simStep_files (m : ModelCL) (bF : BondForceFn) (integrator : Integrator)
    (bf : BoundaryFn) (write : Option ℕ) (wp : String) (st : SimState) (step : ℕ) :
    (simStep m bF integrator bf write wp st step).1.files =
      st.files ++ (if writeBranchTaken write step then [meshPath wp step] else []) := by
  unfold simStep
  split <;> rename_i h <;> simp [h]

theorem simLoop_files (m : ModelCL) (bF : BondForceFn) (integrator : Integrator)
    (bf : BoundaryFn) (write : Option ℕ) (wp : String) :
    ∀ (l : List ℕ) (st : SimState),
      (simLoop m bF integrator bf write wp st l).1.files =
        st.files ++ (l.filter (fun t => writeBranchTaken write t)).map (meshPath wp) := by
  intro l
  induction l with
  | nil => intro st; simp [simLoop]
  | cons t rest ih =>
    intro st
    simp only [simLoop]
    rw [ih, simStep_files, List.filter_cons]
    by_cases h : writeBranchTaken write t = true
    · simp [h, List.append_assoc]
    · simp [h]

theorem simStep_core_frame (m : ModelCL) (bF : BondForceFn) (integrator : Integrator)
    (bf : BoundaryFn) (w₁ w₂ : Option ℕ) (wp₁ wp₂ : String) (st₁ st₂ : SimState)
    (step : ℕ) (h : CoreEq st₁ st₂) :
    CoreEq (simStep m bF integrator bf w₁ wp₁ st₁ step).1
      (simStep m bF integrator bf w₂ wp₂ st₂ step).1 := by
  obtain ⟨hu, hr, hnl, hnn, hf, hd, hfd, hfo⟩ := h
  unfold simStep CoreEq
  split <;> split <;> simp [hu, hr, hnl, hnn, hf, hd, hfd, hfo]

theorem simLoop_core_frame (m : ModelCL) (bF : BondForceFn) (integrator : Integrator)
    (bf : BoundaryFn) (w₁ w₂ : Option ℕ) (wp₁ wp₂ : String) :
    ∀ (l : List ℕ) (st₁ st₂ : SimState), CoreEq st₁ st₂ →
      CoreEq (simLoop m bF integrator bf w₁ wp₁ st₁ l).1
        (simLoop m bF integrator bf w₂ wp₂ st₂ l).1 := by
  intro l
  induction l with
  | nil => intro st₁ st₂ h; exact h
  | cons t rest ih =>
    intro st₁ st₂ h
    exact ih _ _ (simStep_core_frame m bF integrator bf w₁ w₂ wp₁ wp₂ st₁ st₂ t h)

/-- Claim C7: with a write interval `wv > 0` configured, a snapshot is
emitted exactly at the steps `t` of the run with `t mod wv = 0`, each with
path `write_path/U_{t}.vtk` tagged by the step number; and the writes
mutate no simulation state: displacement, damage buffer, neighbour list
and active counts of the run equal those of the identical run with
snapshotting disabled. -/
theorem claim_c7_write_snapshot (m : ModelCL) (bF : BondForceFn) (steps : ℕ)
    (integrator : Integrator) (boundary_function : Option BoundaryFn) (u : Option Disp)
    (connectivity : Option (NList × List ℕ)) (first_step : ℕ) (write_path : String)
    (wv : ℕ) (hw : 0 < wv) :
    (simulate m bF steps integrator boundary_function u connectivity first_step
          (some wv) write_path).files =
        ((List.range' first_step steps).filter
          (fun t => decide (t % wv = 0))).map (meshPath write_path) ∧
      (simulate m bF steps integrator boundary_function u connectivity first_step
          (some wv) write_path).u =
        (simulate m bF steps integrator boundary_function u connectivity first_step
          none write_path).u ∧
      (simulate m bF steps integrator boundary_function u connectivity first_step
          (some wv) write_path).damage =
        (simulate m bF steps integrator boundary_function u connectivity first_step
          none write_path).damage ∧
      (simulate m bF steps integrator boundary_function u connectivity first_step
          (some wv) write_path).nlist =
        (simulate m bF steps integrator boundary_function u connectivity first_step
          none write_path).nlist ∧
      (simulate m bF steps integrator boundary_function u connectivity first_step
          (some wv) write_path).n_neigh =
        (simulate m bF steps integrator boundary_function u connectivity first_step
          none write_path).n_neigh := by
  have hpred : (fun t => writeBranchTaken (some wv) t) =
      (fun t => decide (t % wv = 0)) := by
    funext t
    simp [writeBranchTaken, hw.ne']
  have hcore := simLoop_core_frame m bF integrator
    (simulate_initialise m boundary_function u connectivity).boundary_function
    (some wv) none write_path write_path (List.range' first_step steps)
    (initState m (simulate_initialise m boundary_function u connectivity))
    (initState m (simulate_initialise m boundary_function u connectivity))
    ⟨rfl, rfl, rfl, rfl, rfl, rfl, rfl, rfl⟩
  obtain ⟨h1, h2, h3, h4, h5, h6, h7, h8⟩ := hcore
  refine ⟨?_, h1, h6, h3, h4⟩
  rw [show (simulate m bF steps integrator boundary_function u connectivity first_step
      (some wv) write_path).files =
    (simLoop m bF integrator
        (simulate_initialise m boundary_function u connectivity).boundary_function
        (some wv) write_path
        (initState m (simulate_initialise m boundary_function u connectivity))
        (List.range' first_step steps)).1.files from rfl]
  rw [simLoop_files, hpred]
  rfl

/-- Closed-form instantiation of `claim_c7_write_snapshot` at the concrete
two-node model: one step, write interval 1, snapshot emitted at step 1. -/
theorem claim_c7_write_snapshot_witness :
    (simulate mEx bFEx 1 integEx none none none 1 (some 1) "out").files =
        ((List.range' 1 1).filter (fun t => decide (t % 1 = 0))).map (meshPath "out") ∧
      (simulate mEx bFEx 1 integEx none none none 1 (some 1) "out").u =
        (simulate mEx bFEx 1 integEx none none none 1 none "out").u ∧
      (simulate mEx bFEx 1 integEx none none none 1 (some 1) "out").damage =
        (simulate mEx bFEx 1 integEx none none none 1 none "out").damage ∧
      (simulate mEx bFEx 1 integEx none none none 1 (some 1) "out").nlist =
        (simulate mEx bFEx 1 integEx none none none 1 none "out").nlist ∧
      (simulate mEx bFEx 1 integEx none none none 1 (some 1) "out").n_neigh =
        (simulate mEx bFEx 1 integEx none none none 1 none "out").n_neigh :=
  claim_c7_write_snapshot mEx bFEx 1 integEx none none none 1 "out" 1 (by decide)

/-! ## Claim C10: a zero write interval disables snapshotting -/

theorem simStep_write_zero (m : ModelCL) (bF : BondForceFn) (integrator : Integrator)
    (bf : BoundaryFn) (wp : String) (st : SimState) (step : ℕ) :
    simStep m bF integrator bf (some 0) wp st step =
      simStep m bF integrator bf none wp st step := by
  simp [simStep, writeBranchTaken]

theorem simLoop_write_zero (m : ModelCL) (bF : BondForceFn) (integrator : Integrator)
    (bf : BoundaryFn) (wp : String) :
    ∀ (l : List ℕ) (st : SimState),
      simLoop m bF integrator bf (some 0) wp st l =
        simLoop m bF integrator bf none wp st l := by
  intro l
  induction l with
  | nil => intro st; rfl
  | cons t rest ih =>
    intro st
    simp only [simLoop]
    rw [simStep_write_zero, ih]

/-- Claim C10: `write = 0` is falsy in the `if write:` guard, so the write
branch is skipped on every step exactly as with `write = None` — the whole
run (result, trace, and emitted files) is identical, and in particular no
mesh file is written.  In the embedding the guard tests `w = 0` before the
modulus is taken (`writeBranchTaken`), mirroring the Python evaluation
order in which `step % write` is never evaluated, so no division-by-zero
can be raised. -/
theorem claim_c10_write_zero_disabled (m : ModelCL) (bF : BondForceFn) (steps : ℕ)
    (integrator : Integrator) (boundary_function : Option BoundaryFn) (u : Option Disp)
    (connectivity : Option (NList × List ℕ)) (first_step : ℕ) (write_path : String) :
    simulate m bF steps integrator boundary_function u connectivity first_step
        (some 0) write_path =
      simulate m bF steps integrator boundary_function u connectivity first_step
        none write_path := by
  rw [simulate_eq, simulate_eq, simLoop_write_zero]

end PeriPy
